import Mathlib

/-!
Shallow embedding of the CrowdTaskZ Solidity contract (an encrypted-task
ledger on top of an external FHE service) and proofs of its specified
properties.

Modelling conventions:
- Solidity addresses are `Nat`; `address(0)` is `0`.
- `uint256` values (rewards, deadlines, timestamps, counters) are `Nat`;
  Solidity 0.8 uses checked arithmetic, so `Nat` addition matches every
  non-reverting execution.
- `bytes` arguments are `List Nat`.
- Solidity mappings are total functions returning the zero-initialised
  default struct for absent keys, exactly as the EVM does.
- The external FHE service (`FHE.fromExternal`, `FHE.isInitialized`,
  `FHE.checkSignatures`) is an abstract environment `FheEnv`; ciphertext
  handles (`euint32`) are opaque `Nat` tokens.  The contract always passes
  a singleton handle array to `checkSignatures`, so the model takes one
  handle.
- `FHE.allowThis` and `FHE.makePubliclyDecryptable` are ACL grants on the
  service; they are modelled as boolean maps carried in the state.
- A `require` failure reverts the whole call: operations return
  `Except CrowdErr (LedgerState × List Event)` and the wrapper `resState`
  keeps the pre-state on error, which is exactly EVM revert semantics.
-/

namespace CrowdTaskZ

/-- Task record, mirroring the Solidity `Task` struct field for field.
Note the struct has no disclosed-cleartext field. -/
structure Task where
  title : String
  encryptedData : Nat
  rewardAmount : Nat
  deadline : Nat
  requester : Nat
  isActive : Bool
  isCompleted : Bool
deriving DecidableEq, Repr

/-- Zero-initialised `Task`, the value a Solidity mapping returns for an
absent key. -/
def Task.zero : Task :=
  { title := "", encryptedData := 0, rewardAmount := 0, deadline := 0,
    requester := 0, isActive := false, isCompleted := false }

/-- Worker record, mirroring the Solidity `Worker` struct. -/
structure Worker where
  workerAddress : Nat
  reputation : Nat
  completedTasks : Nat
deriving DecidableEq, Repr

/-- Zero-initialised `Worker`. -/
def Worker.zero : Worker :=
  { workerAddress := 0, reputation := 0, completedTasks := 0 }

/-- The contract storage plus the FHE-service ACL flags the contract
grants (`allowThis`, `makePubliclyDecryptable`). -/
structure LedgerState where
  tasks : String → Task
  workers : Nat → Worker
  taskAssignments : String → Nat
  taskIds : List String
  workerAddresses : List Nat
  allowedThis : Nat → Bool
  publiclyDecryptable : Nat → Bool

/-- Contract state right after the constructor: every mapping is
zero-initialised and both id lists are empty. -/
def initialState : LedgerState :=
  { tasks := fun _ => Task.zero, workers := fun _ => Worker.zero,
    taskAssignments := fun _ => 0, taskIds := [], workerAddresses := [],
    allowedThis := fun _ => false, publiclyDecryptable := fun _ => false }

/-- The three Solidity events of the contract. -/
inductive Event where
  | TaskCreated (taskId : String) (requester : Nat)
  | TaskAssigned (taskId : String) (worker : Nat)
  | TaskCompleted (taskId : String) (worker : Nat)
deriving DecidableEq, Repr

/-- Typed revert reasons, one per `require` string in the contract plus
the revert raised inside `FHE.checkSignatures`. -/
inductive CrowdErr where
  | DuplicateKey
  | InvalidCiphertext
  | AlreadyRegistered
  | NotFound
  | NotActive
  | AlreadyAssigned
  | WorkerNotRegistered
  | NotAssignedWorker
  | AlreadyCompleted
  | DeadlineExceeded
  | InvalidProof
deriving DecidableEq, Repr

/-- Abstract external cryptographic service.  `checkSignatures` receives
the single ciphertext handle the contract puts in its `cts` array. -/
structure FheEnv where
  fromExternal : Nat → List Nat → Nat
  isInitialized : Nat → Bool
  checkSignatures : Nat → List Nat → List Nat → Bool

/-- A permissive concrete environment used for concrete executions. -/
def fheId : FheEnv :=
  { fromExternal := fun e _ => e, isInitialized := fun _ => true,
    checkSignatures := fun _ _ _ => true }

/-- Pointwise update of a `String`-keyed mapping. -/
def updTask (f : String → Task) (k : String) (t : Task) : String → Task :=
  fun k' => if k' = k then t else f k'

/-- Pointwise update of an address-keyed worker mapping. -/
def updWorker (f : Nat → Worker) (a : Nat) (w : Worker) : Nat → Worker :=
  fun a' => if a' = a then w else f a'

/-- Pointwise update of the assignment mapping. -/
def updAssign (f : String → Nat) (k : String) (a : Nat) : String → Nat :=
  fun k' => if k' = k then a else f k'

/-- Pointwise update of a handle-keyed boolean mapping. -/
def updFlag (f : Nat → Bool) (h : Nat) : Nat → Bool :=
  fun h' => if h' = h then true else f h'

/-- Embedding of `createTask`.  The existence test is the contract's
`bytes(tasks[taskId].title).length == 0`; the ciphertext check is
`FHE.isInitialized(FHE.fromExternal(encryptedData, inputProof))`. -/
def createTask (env : FheEnv) (st : LedgerState) (sender : Nat)
    (taskId title : String) (encryptedData : Nat) (inputProof : List Nat)
    (rewardAmount deadline : Nat) :
    Except CrowdErr (LedgerState × List Event) :=
  if (st.tasks taskId).title ≠ "" then
    Except.error CrowdErr.DuplicateKey
  else if env.isInitialized (env.fromExternal encryptedData inputProof) = false then
    Except.error CrowdErr.InvalidCiphertext
  else
    let handle := env.fromExternal encryptedData inputProof
    Except.ok
      ({ st with
          tasks := updTask st.tasks taskId
            { title := title, encryptedData := handle,
              rewardAmount := rewardAmount, deadline := deadline,
              requester := sender, isActive := true, isCompleted := false },
          taskIds := st.taskIds ++ [taskId],
          allowedThis := updFlag st.allowedThis handle,
          publiclyDecryptable := updFlag st.publiclyDecryptable handle },
        [Event.TaskCreated taskId sender])

/-- Embedding of `registerWorker`.  The contract emits no event here. -/
def registerWorker (st : LedgerState) (sender : Nat) :
    Except CrowdErr (LedgerState × List Event) :=
  if (st.workers sender).workerAddress ≠ 0 then
    Except.error CrowdErr.AlreadyRegistered
  else
    Except.ok
      ({ st with
          workers := updWorker st.workers sender
            { workerAddress := sender, reputation := 0, completedTasks := 0 },
          workerAddresses := st.workerAddresses ++ [sender] },
        [])

/-- Embedding of `assignTask`, with the four `require` checks in source
order. -/
def assignTask (st : LedgerState) (sender : Nat) (taskId : String) :
    Except CrowdErr (LedgerState × List Event) :=
  if (st.tasks taskId).title = "" then
    Except.error CrowdErr.NotFound
  else if (st.tasks taskId).isActive = false then
    Except.error CrowdErr.NotActive
  else if st.taskAssignments taskId ≠ 0 then
    Except.error CrowdErr.AlreadyAssigned
  else if (st.workers sender).workerAddress = 0 then
    Except.error CrowdErr.WorkerNotRegistered
  else
    Except.ok
      ({ st with taskAssignments := updAssign st.taskAssignments taskId sender },
        [Event.TaskAssigned taskId sender])

/-- Embedding of `submitTaskResult`.  `now` is `block.timestamp`; the
deadline `require` is `block.timestamp <= tasks[taskId].deadline`.  A
failing `FHE.checkSignatures` reverts, surfaced as `InvalidProof`. -/
def submitTaskResult (env : FheEnv) (st : LedgerState) (sender : Nat)
    (taskId : String) (abiEncodedResult computationProof : List Nat)
    (now : Nat) : Except CrowdErr (LedgerState × List Event) :=
  if (st.tasks taskId).title = "" then
    Except.error CrowdErr.NotFound
  else if st.taskAssignments taskId ≠ sender then
    Except.error CrowdErr.NotAssignedWorker
  else if (st.tasks taskId).isCompleted = true then
    Except.error CrowdErr.AlreadyCompleted
  else if (st.tasks taskId).deadline < now then
    Except.error CrowdErr.DeadlineExceeded
  else if env.checkSignatures (st.tasks taskId).encryptedData
      abiEncodedResult computationProof = false then
    Except.error CrowdErr.InvalidProof
  else
    Except.ok
      ({ st with
          tasks := updTask st.tasks taskId
            { st.tasks taskId with isCompleted := true, isActive := false },
          workers := updWorker st.workers sender
            { st.workers sender with
                completedTasks := (st.workers sender).completedTasks + 1,
                reputation := (st.workers sender).reputation + 10 } },
        [Event.TaskCompleted taskId sender])

/-- Embedding of the read-only `getTask`. -/
def getTask (st : LedgerState) (taskId : String) :
    Except CrowdErr (String × Nat × Nat × Nat × Bool × Bool) :=
  if (st.tasks taskId).title = "" then
    Except.error CrowdErr.NotFound
  else
    Except.ok ((st.tasks taskId).title, (st.tasks taskId).rewardAmount,
      (st.tasks taskId).deadline, (st.tasks taskId).requester,
      (st.tasks taskId).isActive, (st.tasks taskId).isCompleted)

/-- Embedding of the read-only `getWorker`. -/
def getWorker (st : LedgerState) (a : Nat) : Except CrowdErr (Nat × Nat) :=
  if (st.workers a).workerAddress = 0 then
    Except.error CrowdErr.NotFound
  else
    Except.ok ((st.workers a).reputation, (st.workers a).completedTasks)

/-- EVM revert semantics: the state after a call is the new state on
success and the unchanged pre-state on revert. -/
def resState (st : LedgerState)
    (r : Except CrowdErr (LedgerState × List Event)) : LedgerState :=
  match r with
  | Except.ok p => p.1
  | Except.error _ => st

/-- Events observed from a call: the emitted list on success, nothing on
revert. -/
def resEvents (r : Except CrowdErr (LedgerState × List Event)) : List Event :=
  match r with
  | Except.ok p => p.2
  | Except.error _ => []

/-- Whether a call succeeded. -/
def resOk (r : Except CrowdErr (LedgerState × List Event)) : Bool :=
  match r with
  | Except.ok _ => true
  | Except.error _ => false

/-- Inversion for a successful `createTask`: the stored title at the key
was empty, the ciphertext validated, and the resulting state and events
are as written in the contract body. -/
theorem createTask_ok {env : FheEnv} {st : LedgerState} {sender : Nat}
    {taskId title : String} {e : Nat} {p : List Nat} {r d : Nat}
    {q : LedgerState × List Event}
    (h : createTask env st sender taskId title e p r d = Except.ok q) :
    (st.tasks taskId).title = "" ∧
    env.isInitialized (env.fromExternal e p) = true ∧
    q.1 = { st with
        tasks := updTask st.tasks taskId
          { title := title, encryptedData := env.fromExternal e p,
            rewardAmount := r, deadline := d, requester := sender,
            isActive := true, isCompleted := false },
        taskIds := st.taskIds ++ [taskId],
        allowedThis := updFlag st.allowedThis (env.fromExternal e p),
        publiclyDecryptable := updFlag st.publiclyDecryptable (env.fromExternal e p) } ∧
    q.2 = [Event.TaskCreated taskId sender] := by
  unfold createTask at h
  split_ifs at h with h1 h2
  cases h
  exact ⟨by simpa using h1, by simpa using h2, rfl, rfl⟩

/-- Inversion for a successful `registerWorker`: the sender was
unregistered, a fresh zero-counter record is stored, and no event is
emitted. -/
theorem registerWorker_ok {st : LedgerState} {sender : Nat}
    {q : LedgerState × List Event}
    (h : registerWorker st sender = Except.ok q) :
    (st.workers sender).workerAddress = 0 ∧
    q.1 = { st with
        workers := updWorker st.workers sender
          { workerAddress := sender, reputation := 0, completedTasks := 0 },
        workerAddresses := st.workerAddresses ++ [sender] } ∧
    q.2 = [] := by
  unfold registerWorker at h
  split_ifs at h with h1
  cases h
  exact ⟨by simpa using h1, rfl, rfl⟩

/-- Inversion for a successful `assignTask`: all four preconditions held
and the only change is the new assignment, with one event. -/
theorem assignTask_ok {st : LedgerState} {sender : Nat} {taskId : String}
    {q : LedgerState × List Event}
    (h : assignTask st sender taskId = Except.ok q) :
    (st.tasks taskId).title ≠ "" ∧
    (st.tasks taskId).isActive = true ∧
    st.taskAssignments taskId = 0 ∧
    (st.workers sender).workerAddress ≠ 0 ∧
    q.1 = { st with taskAssignments := updAssign st.taskAssignments taskId sender } ∧
    q.2 = [Event.TaskAssigned taskId sender] := by
  unfold assignTask at h
  split_ifs at h with h1 h2 h3 h4
  cases h
  exact ⟨h1, by simpa using h2, by simpa using h3, h4, rfl, rfl⟩

/-- Inversion for a successful `submitTaskResult`: all preconditions
held, the proof verified, and the resulting state flips the two phase
flags and bumps the worker counters, with one event. -/
theorem submitTaskResult_ok {env : FheEnv} {st : LedgerState} {sender : Nat}
    {taskId : String} {res proof : List Nat} {now : Nat}
    {q : LedgerState × List Event}
    (h : submitTaskResult env st sender taskId res proof now = Except.ok q) :
    (st.tasks taskId).title ≠ "" ∧
    st.taskAssignments taskId = sender ∧
    (st.tasks taskId).isCompleted = false ∧
    now ≤ (st.tasks taskId).deadline ∧
    env.checkSignatures (st.tasks taskId).encryptedData res proof = true ∧
    q.1 = { st with
        tasks := updTask st.tasks taskId
          { st.tasks taskId with isCompleted := true, isActive := false },
        workers := updWorker st.workers sender
          { st.workers sender with
              completedTasks := (st.workers sender).completedTasks + 1,
              reputation := (st.workers sender).reputation + 10 } } ∧
    q.2 = [Event.TaskCompleted taskId sender] := by
  unfold submitTaskResult at h
  split_ifs at h with h1 h2 h3 h4 h5
  cases h
  exact ⟨h1, by simpa using h2, by simpa using h3, by omega,
    by simpa using h5, rfl, rfl⟩

/-- One successful mutating call of the contract, for any caller,
arguments, timestamp and external service. -/
inductive Step : LedgerState → LedgerState → Prop where
  | create {env st sender taskId title encryptedData inputProof reward deadline p} :
      createTask env st sender taskId title encryptedData inputProof reward deadline
        = Except.ok p → Step st p.1
  | register {st sender p} :
      registerWorker st sender = Except.ok p → Step st p.1
  | assign {st sender taskId p} :
      assignTask st sender taskId = Except.ok p → Step st p.1
  | submit {env st sender taskId res proof now p} :
      submitTaskResult env st sender taskId res proof now = Except.ok p →
        Step st p.1

/-- Ledger states reachable from the freshly constructed contract by
successful calls (reverted calls leave the state unchanged). -/
inductive Reachable : LedgerState → Prop where
  | init : Reachable initialState
  | step {st st'} : Reachable st → Step st st' → Reachable st'

/-- Auxiliary reachability invariant: a completed task always carries a
non-empty title, and the two phase flags are never both set. -/
theorem reachable_inv {st : LedgerState} (h : Reachable st) (k : String) :
    ((st.tasks k).isCompleted = true → (st.tasks k).title ≠ "") ∧
    ¬((st.tasks k).isActive = true ∧ (st.tasks k).isCompleted = true) := by
  induction h with
  | init => simp [initialState, Task.zero]
  | step hr hs ih =>
    cases hs with
    | create hc =>
      obtain ⟨ht, hv, hst, hev⟩ := createTask_ok hc
      rw [hst]
      dsimp only [updTask]
      split_ifs with hk
      · simp
      · exact ih
    | register hc =>
      obtain ⟨h0, hst, hev⟩ := registerWorker_ok hc
      rw [hst]
      exact ih
    | assign hc =>
      obtain ⟨h1, h2, h3, h4, hst, hev⟩ := assignTask_ok hc
      rw [hst]
      exact ih
    | submit hc =>
      obtain ⟨h1, h2, h3, h4, h5, hst, hev⟩ := submitTaskResult_ok hc
      rw [hst]
      dsimp only [updTask]
      split_ifs with hk
      · subst hk
        exact ⟨fun _ => h1, by simp⟩
      · exact ih

/-- Auxiliary reachability invariant: a stored worker record either is the
zero record or carries its own key as `workerAddress`. -/
theorem reachable_workerAddr {st : LedgerState} (h : Reachable st) (a : Nat) :
    (st.workers a).workerAddress = 0 ∨ (st.workers a).workerAddress = a := by
  induction h with
  | init => exact Or.inl rfl
  | step hr hs ih =>
    cases hs with
    | create hc =>
      obtain ⟨ht, hv, hst, hev⟩ := createTask_ok hc
      rw [hst]
      exact ih
    | register hc =>
      obtain ⟨h0, hst, hev⟩ := registerWorker_ok hc
      rw [hst]
      dsimp only [updWorker]
      split_ifs with hk
      · exact Or.inr hk.symm
      · exact ih
    | assign hc =>
      obtain ⟨h1, h2, h3, h4, hst, hev⟩ := assignTask_ok hc
      rw [hst]
      exact ih
    | submit hc =>
      obtain ⟨h1, h2, h3, h4, h5, hst, hev⟩ := submitTaskResult_ok hc
      rw [hst]
      dsimp only [updWorker]
      split_ifs with hk
      · subst hk
        exact ih
      · exact ih

/-- A single successful call never clears the completion flag of any
task (for reachable pre-states). -/
theorem step_completed_mono {st st' : LedgerState} (hr : Reachable st)
    (hs : Step st st') (k : String) (h : (st.tasks k).isCompleted = true) :
    (st'.tasks k).isCompleted = true := by
  cases hs with
  | create hc =>
    obtain ⟨ht, hv, hst, hev⟩ := createTask_ok hc
    rw [hst]
    dsimp only [updTask]
    split_ifs with hk
    · subst hk
      exact absurd ht ((reachable_inv hr k).1 h)
    · exact h
  | register hc =>
    obtain ⟨h0, hst, hev⟩ := registerWorker_ok hc
    rw [hst]
    exact h
  | assign hc =>
    obtain ⟨h1, h2, h3, h4, hst, hev⟩ := assignTask_ok hc
    rw [hst]
    exact h
  | submit hc =>
    obtain ⟨h1, h2, h3, h4, h5, hst, hev⟩ := submitTaskResult_ok hc
    rw [hst]
    dsimp only [updTask]
    split_ifs with hk
    · rfl
    · exact h

/-- A single successful call never changes an already-recorded (non-zero)
assignment. -/
theorem step_assign_mono {st st' : LedgerState} (hs : Step st st')
    (k : String) (h : st.taskAssignments k ≠ 0) :
    st'.taskAssignments k = st.taskAssignments k := by
  cases hs with
  | create hc =>
    obtain ⟨ht, hv, hst, hev⟩ := createTask_ok hc
    rw [hst]
  | register hc =>
    obtain ⟨h0, hst, hev⟩ := registerWorker_ok hc
    rw [hst]
  | assign hc =>
    obtain ⟨h1, h2, h3, h4, hst, hev⟩ := assignTask_ok hc
    rw [hst]
    dsimp only [updAssign]
    split_ifs with hk
    · subst hk
      exact absurd h3 h
    · rfl
  | submit hc =>
    obtain ⟨h1, h2, h3, h4, h5, hst, hev⟩ := submitTaskResult_ok hc
    rw [hst]

/-- Concrete run, stage 1: requester 1 creates task "t" with title
"Title", ciphertext handle 42, reward 100, deadline 50. -/
def exSt1 : LedgerState :=
  resState initialState (createTask fheId initialState 1 "t" "Title" 42 [] 100 50)

/-- Concrete run, stage 2: worker 2 registers. -/
def exSt2 : LedgerState := resState exSt1 (registerWorker exSt1 2)

/-- Concrete run, stage 3: worker 2 takes task "t". -/
def exSt3 : LedgerState := resState exSt2 (assignTask exSt2 2 "t")

/-- Stage 1 of the concrete run is a reachable contract state. -/
theorem exSt1_reachable : Reachable exSt1 :=
  Reachable.step Reachable.init
    (@Step.create fheId initialState 1 "t" "Title" 42 [] 100 50 _ rfl)

/-- Stage 2 of the concrete run is a reachable contract state. -/
theorem exSt2_reachable : Reachable exSt2 :=
  Reachable.step exSt1_reachable (@Step.register exSt1 2 _ rfl)

/-- Stage 3 of the concrete run is a reachable contract state. -/
theorem exSt3_reachable : Reachable exSt3 :=
  Reachable.step exSt2_reachable (@Step.assign exSt2 2 "t" _ rfl)

/-- A task stored under key "t" whose stored title is the empty string,
produced by a successful `createTask` call with an empty title. -/
def stEmptyTitle : LedgerState :=
  resState initialState (createTask fheId initialState 1 "t" "" 7 [] 100 50)

/-- C1 (counterexample): a task created by a successful `createTask` call
with an empty title is recorded in the ledger (its key is on `taskIds`,
it is `Active`, its requester is stored), yet a second `createTask` with
the same key does not revert with `DuplicateKey`: it succeeds, silently
overwrites the record and pushes the key onto `taskIds` a second time,
so the final state differs from the state after only the first call. -/
theorem createTask_duplicate_cex :
    resOk (createTask fheId initialState 1 "t" "" 7 [] 100 50) = true ∧
    stEmptyTitle.taskIds = ["t"] ∧
    (stEmptyTitle.tasks "t").isActive = true ∧
    (stEmptyTitle.tasks "t").requester = 1 ∧
    resOk (createTask fheId stEmptyTitle 2 "t" "Second" 8 [] 5 60) = true ∧
    ((resState stEmptyTitle
        (createTask fheId stEmptyTitle 2 "t" "Second" 8 [] 5 60)).tasks "t").title
      = "Second" ∧
    ((resState stEmptyTitle
        (createTask fheId stEmptyTitle 2 "t" "Second" 8 [] 5 60)).tasks "t").requester
      = 2 ∧
    (resState stEmptyTitle
        (createTask fheId stEmptyTitle 2 "t" "Second" 8 [] 5 60)).taskIds
      = ["t", "t"] :=
  ⟨rfl, rfl, rfl, rfl, rfl, rfl, rfl, rfl⟩

/-- C1 (amended): whenever the task stored at key k has a non-empty
title — the contract's notion of task existence, equivalently `getTask`
succeeds on k — every further `createTask` call with key k reverts with
`DuplicateKey` ("Task already exists") and the ledger state afterwards is
identical to the state before the call, hence to the state after only
the first creation. -/
theorem createTask_duplicate_rejected (env : FheEnv) (st : LedgerState)
    (sender : Nat) (k title : String) (e : Nat) (p : List Nat) (r d : Nat)
    (h : (st.tasks k).title ≠ "") :
    createTask env st sender k title e p r d
      = Except.error CrowdErr.DuplicateKey ∧
    resState st (createTask env st sender k title e p r d) = st := by
  have hc : createTask env st sender k title e p r d
      = Except.error CrowdErr.DuplicateKey := by
    unfold createTask
    rw [if_pos h]
  exact ⟨hc, by rw [hc]; rfl⟩

/-- C1 (witness): after the concrete creation of task "t" (title
"Title"), a duplicate `createTask` for "t" reverts with `DuplicateKey`
and leaves the state unchanged. -/
theorem createTask_duplicate_rejected_witness :
    createTask fheId exSt1 3 "t" "Another" 9 [] 1 2
      = Except.error CrowdErr.DuplicateKey ∧
    resState exSt1 (createTask fheId exSt1 3 "t" "Another" 9 [] 1 2) = exSt1 :=
  createTask_duplicate_rejected fheId exSt1 3 "t" "Another" 9 [] 1 2 (by decide)

/-- C2 (counterexample): `registerWorker` is a mutating entry point, yet
a successful call to it emits no event at all, contradicting "each
emitting exactly one domain event on success". -/
theorem registerWorker_no_event_cex :
    resOk (registerWorker initialState 5) = true ∧
    resEvents (registerWorker initialState 5) = [] :=
  ⟨rfl, rfl⟩

/-- C2 (amended): on success, `createTask` emits exactly
`[TaskCreated]`, `assignTask` exactly `[TaskAssigned]`,
`submitTaskResult` exactly `[TaskCompleted]`, while `registerWorker`
emits no event; reverted calls of any of the four emit nothing. -/
theorem mutating_events (env : FheEnv) (st : LedgerState)
    (sender e r d now : Nat) (taskId title : String)
    (p res proof : List Nat) :
    (resOk (createTask env st sender taskId title e p r d) = true →
      resEvents (createTask env st sender taskId title e p r d)
        = [Event.TaskCreated taskId sender]) ∧
    (resOk (registerWorker st sender) = true →
      resEvents (registerWorker st sender) = []) ∧
    (resOk (assignTask st sender taskId) = true →
      resEvents (assignTask st sender taskId)
        = [Event.TaskAssigned taskId sender]) ∧
    (resOk (submitTaskResult env st sender taskId res proof now) = true →
      resEvents (submitTaskResult env st sender taskId res proof now)
        = [Event.TaskCompleted taskId sender]) ∧
    (resOk (createTask env st sender taskId title e p r d) = false →
      resEvents (createTask env st sender taskId title e p r d) = []) ∧
    (resOk (registerWorker st sender) = false →
      resEvents (registerWorker st sender) = []) ∧
    (resOk (assignTask st sender taskId) = false →
      resEvents (assignTask st sender taskId) = []) ∧
    (resOk (submitTaskResult env st sender taskId res proof now) = false →
      resEvents (submitTaskResult env st sender taskId res proof now) = []) := by
  refine ⟨?_, ?_, ?_, ?_, ?_, ?_, ?_, ?_⟩ <;> intro h
  · cases hc : createTask env st sender taskId title e p r d with
    | ok q => exact (createTask_ok hc).2.2.2
    | error err => rw [hc] at h; exact absurd h (by simp [resOk])
  · cases hc : registerWorker st sender with
    | ok q => exact (registerWorker_ok hc).2.2
    | error err => rw [hc] at h; exact absurd h (by simp [resOk])
  · cases hc : assignTask st sender taskId with
    | ok q => exact (assignTask_ok hc).2.2.2.2.2
    | error err => rw [hc] at h; exact absurd h (by simp [resOk])
  · cases hc : submitTaskResult env st sender taskId res proof now with
    | ok q => exact (submitTaskResult_ok hc).2.2.2.2.2.2
    | error err => rw [hc] at h; exact absurd h (by simp [resOk])
  · cases hc : createTask env st sender taskId title e p r d with
    | ok q => rw [hc] at h; exact absurd h (by simp [resOk])
    | error err => rfl
  · cases hc : registerWorker st sender with
    | ok q => rw [hc] at h; exact absurd h (by simp [resOk])
    | error err => rfl
  · cases hc : assignTask st sender taskId with
    | ok q => rw [hc] at h; exact absurd h (by simp [resOk])
    | error err => rfl
  · cases hc : submitTaskResult env st sender taskId res proof now with
    | ok q => rw [hc] at h; exact absurd h (by simp [resOk])
    | error err => rfl

/-- C2 (witness): concrete event traces of the four mutating calls from
the initial state and along the concrete run. -/
theorem mutating_events_witness :
    resEvents (createTask fheId initialState 1 "t" "Title" 42 [] 100 50)
      = [Event.TaskCreated "t" 1] ∧
    resEvents (registerWorker exSt1 2) = [] ∧
    resEvents (assignTask exSt2 2 "t") = [Event.TaskAssigned "t" 2] ∧
    resEvents (submitTaskResult fheId exSt3 2 "t" [1] [1] 50)
      = [Event.TaskCompleted "t" 2] :=
  ⟨(mutating_events fheId initialState 1 42 100 50 50 "t" "Title" [] [1] [1]).1 rfl,
   (mutating_events fheId exSt1 2 42 100 50 50 "t" "Title" [] [1] [1]).2.1 rfl,
   (mutating_events fheId exSt2 2 42 100 50 50 "t" "Title" [] [1] [1]).2.2.1 rfl,
   (mutating_events fheId exSt3 2 42 100 50 50 "t" "Title" [] [1] [1]).2.2.2.1 rfl⟩

/-- C3 (counterexample): the contract stores no disclosed cleartext.  On
the concrete ready state, two successful `submitTaskResult` calls that
claim two different cleartexts produce bit-identical results: no field of
any task, worker, or other storage is populated with the claimed
cleartext. -/
theorem submit_no_disclosed_value_cex :
    ([1, 2, 3] : List Nat) ≠ [9] ∧
    resOk (submitTaskResult fheId exSt3 2 "t" [1, 2, 3] [0] 50) = true ∧
    submitTaskResult fheId exSt3 2 "t" [1, 2, 3] [0] 50
      = submitTaskResult fheId exSt3 2 "t" [9] [0] 50 :=
  ⟨by decide, rfl, rfl⟩

/-- C3 (amended): a successful `submitTaskResult` stores no cleartext at
all: the task record changes only by `isCompleted := true` and
`isActive := false`, every other task is untouched, and the
public-decryptability flags do not change at submission — that capability
was already granted at creation time.  Moreover the entire outcome of
`submitTaskResult` depends on the claimed cleartext bytes only through
the external signature check, so no storage can hold them. -/
theorem submit_stores_no_cleartext (env : FheEnv) (st : LedgerState)
    (sender now : Nat) (taskId : String) (res proof : List Nat)
    (h : resOk (submitTaskResult env st sender taskId res proof now) = true) :
    (resState st (submitTaskResult env st sender taskId res proof now)).tasks taskId
      = { st.tasks taskId with isActive := false, isCompleted := true } ∧
    (∀ k, k ≠ taskId →
      (resState st (submitTaskResult env st sender taskId res proof now)).tasks k
        = st.tasks k) ∧
    (resState st (submitTaskResult env st sender taskId res proof now)).publiclyDecryptable
      = st.publiclyDecryptable ∧
    (∀ res2 proof2,
      env.checkSignatures (st.tasks taskId).encryptedData res2 proof2
          = env.checkSignatures (st.tasks taskId).encryptedData res proof →
        submitTaskResult env st sender taskId res2 proof2 now
          = submitTaskResult env st sender taskId res proof now) ∧
    (∀ env2 st2 s2 e2 r2 d2 (k2 t2 : String) (p2 : List Nat),
      resOk (createTask env2 st2 s2 k2 t2 e2 p2 r2 d2) = true →
        (resState st2 (createTask env2 st2 s2 k2 t2 e2 p2 r2 d2)).publiclyDecryptable
          (env2.fromExternal e2 p2) = true) := by
  refine ⟨?_, ?_, ?_, ?_, ?_⟩
  · cases hc : submitTaskResult env st sender taskId res proof now with
    | ok q =>
        obtain ⟨h1, h2, h3, h4, h5, hst, hev⟩ := submitTaskResult_ok hc
        show q.1.tasks taskId = _
        rw [hst]
        dsimp only [updTask]
        rw [if_pos rfl]
    | error err => rw [hc] at h; exact absurd h (by simp [resOk])
  · intro k hk
    cases hc : submitTaskResult env st sender taskId res proof now with
    | ok q =>
        obtain ⟨h1, h2, h3, h4, h5, hst, hev⟩ := submitTaskResult_ok hc
        show q.1.tasks k = _
        rw [hst]
        dsimp only [updTask]
        rw [if_neg hk]
    | error err => rw [hc] at h; exact absurd h (by simp [resOk])
  · cases hc : submitTaskResult env st sender taskId res proof now with
    | ok q =>
        obtain ⟨h1, h2, h3, h4, h5, hst, hev⟩ := submitTaskResult_ok hc
        show q.1.publiclyDecryptable = _
        rw [hst]
    | error err => rw [hc] at h; exact absurd h (by simp [resOk])
  · intro res2 proof2 hEq
    unfold submitTaskResult
    rw [hEq]
  · intro env2 st2 s2 e2 r2 d2 k2 t2 p2 h2
    cases hc : createTask env2 st2 s2 k2 t2 e2 p2 r2 d2 with
    | ok q =>
        obtain ⟨ht, hv, hst, hev⟩ := createTask_ok hc
        show q.1.publiclyDecryptable (env2.fromExternal e2 p2) = true
        rw [hst]
        dsimp only [updFlag]
        rw [if_pos rfl]
    | error err => rw [hc] at h2; exact absurd h2 (by simp [resOk])

/-- C3 (witness): the concrete successful submission on the ready state,
with its claimed cleartext `[1]`. -/
theorem submit_stores_no_cleartext_witness :
    (resState exSt3 (submitTaskResult fheId exSt3 2 "t" [1] [1] 50)).tasks "t"
      = { exSt3.tasks "t" with isActive := false, isCompleted := true } ∧
    (resState exSt3 (submitTaskResult fheId exSt3 2 "t" [1] [1] 50)).publiclyDecryptable
      = exSt3.publiclyDecryptable :=
  ⟨(submit_stores_no_cleartext fheId exSt3 2 50 "t" [1] [1] rfl).1,
   (submit_stores_no_cleartext fheId exSt3 2 50 "t" [1] [1] rfl).2.2.1⟩

/-- C4: in every reachable ledger state no task has `isActive` and
`isCompleted` simultaneously true, and no successful contract call from a
reachable state ever clears an `isCompleted` flag, so completion is a
one-way terminal transition. -/
theorem task_phase_invariant (st : LedgerState) (h : Reachable st) :
    (∀ k, ¬((st.tasks k).isActive = true ∧ (st.tasks k).isCompleted = true)) ∧
    (∀ st' k, Step st st' → (st.tasks k).isCompleted = true →
      (st'.tasks k).isCompleted = true) :=
  ⟨fun k => (reachable_inv h k).2,
   fun _ k hs hk => step_completed_mono h hs k hk⟩

/-- C4 (witness): the mutual-exclusion half evaluated on the reachable
concrete state after creation, registration and assignment. -/
theorem task_phase_invariant_witness :
    ¬((exSt3.tasks "t").isActive = true ∧ (exSt3.tasks "t").isCompleted = true) :=
  (task_phase_invariant exSt3 exSt3_reachable).1 "t"

/-- C5: every successful `submitTaskResult` happens on a task assigned
to the caller, not yet completed and within its deadline, and afterwards
the task is completed and inactive, the caller's `completedTasks` grew by
exactly one, the caller's `reputation` grew by exactly the fixed delta
10, and exactly one `TaskCompleted` event carrying the task key and the
caller's identity was emitted. -/
theorem submit_success_effects (env : FheEnv) (st : LedgerState)
    (sender now : Nat) (taskId : String) (res proof : List Nat)
    (h : resOk (submitTaskResult env st sender taskId res proof now) = true) :
    st.taskAssignments taskId = sender ∧
    (st.tasks taskId).isCompleted = false ∧
    now ≤ (st.tasks taskId).deadline ∧
    ((resState st (submitTaskResult env st sender taskId res proof now)).tasks taskId).isCompleted
      = true ∧
    ((resState st (submitTaskResult env st sender taskId res proof now)).tasks taskId).isActive
      = false ∧
    ((resState st (submitTaskResult env st sender taskId res proof now)).workers sender).completedTasks
      = (st.workers sender).completedTasks + 1 ∧
    ((resState st (submitTaskResult env st sender taskId res proof now)).workers sender).reputation
      = (st.workers sender).reputation + 10 ∧
    resEvents (submitTaskResult env st sender taskId res proof now)
      = [Event.TaskCompleted taskId sender] := by
  cases hc : submitTaskResult env st sender taskId res proof now with
  | ok q =>
      obtain ⟨h1, h2, h3, h4, h5, hst, hev⟩ := submitTaskResult_ok hc
      refine ⟨h2, h3, h4, ?_, ?_, ?_, ?_, hev⟩
      · show (q.1.tasks taskId).isCompleted = true
        rw [hst]
        dsimp only [updTask]
        rw [if_pos rfl]
      · show (q.1.tasks taskId).isActive = false
        rw [hst]
        dsimp only [updTask]
        rw [if_pos rfl]
      · show (q.1.workers sender).completedTasks
            = (st.workers sender).completedTasks + 1
        rw [hst]
        dsimp only [updWorker]
        rw [if_pos rfl]
      · show (q.1.workers sender).reputation
            = (st.workers sender).reputation + 10
        rw [hst]
        dsimp only [updWorker]
        rw [if_pos rfl]
  | error err => rw [hc] at h; exact absurd h (by simp [resOk])

/-- C5 (witness): the concrete end-to-end run — create "t" (deadline
50), register worker 2, assign, submit at time 50 — evaluated. -/
theorem submit_success_effects_witness :
    exSt3.taskAssignments "t" = 2 ∧
    (exSt3.tasks "t").isCompleted = false ∧
    (50 : Nat) ≤ (exSt3.tasks "t").deadline ∧
    ((resState exSt3 (submitTaskResult fheId exSt3 2 "t" [1] [1] 50)).tasks "t").isCompleted
      = true ∧
    ((resState exSt3 (submitTaskResult fheId exSt3 2 "t" [1] [1] 50)).tasks "t").isActive
      = false ∧
    ((resState exSt3 (submitTaskResult fheId exSt3 2 "t" [1] [1] 50)).workers 2).completedTasks
      = (exSt3.workers 2).completedTasks + 1 ∧
    ((resState exSt3 (submitTaskResult fheId exSt3 2 "t" [1] [1] 50)).workers 2).reputation
      = (exSt3.workers 2).reputation + 10 ∧
    resEvents (submitTaskResult fheId exSt3 2 "t" [1] [1] 50)
      = [Event.TaskCompleted "t" 2] :=
  submit_success_effects fheId exSt3 2 50 "t" [1] [1] rfl

/-- C6: every reverting `submitTaskResult` call — whichever of the five
possible reverts fired (NotFound, NotAssignedWorker, AlreadyCompleted,
DeadlineExceeded, InvalidProof) — leaves the entire ledger state
unchanged, so `getTask` and `getWorker` answer identically before and
after and no event is observed. -/
theorem submit_failure_atomic (env : FheEnv) (st : LedgerState)
    (sender now : Nat) (taskId : String) (res proof : List Nat)
    (e : CrowdErr)
    (h : submitTaskResult env st sender taskId res proof now
      = Except.error e) :
    resState st (submitTaskResult env st sender taskId res proof now) = st ∧
    (∀ k, getTask (resState st (submitTaskResult env st sender taskId res proof now)) k
      = getTask st k) ∧
    (∀ a, getWorker (resState st (submitTaskResult env st sender taskId res proof now)) a
      = getWorker st a) ∧
    resEvents (submitTaskResult env st sender taskId res proof now) = [] ∧
    (e = CrowdErr.NotFound ∨ e = CrowdErr.NotAssignedWorker ∨
     e = CrowdErr.AlreadyCompleted ∨ e = CrowdErr.DeadlineExceeded ∨
     e = CrowdErr.InvalidProof) := by
  refine ⟨by rw [h]; rfl, fun k => by rw [h]; rfl, fun a => by rw [h]; rfl,
    by rw [h]; rfl, ?_⟩
  unfold submitTaskResult at h
  split_ifs at h <;> cases h <;> simp

/-- C6 (witness): submitting against the empty ledger reverts with
`NotFound` and the state is untouched. -/
theorem submit_failure_atomic_witness :
    resState initialState (submitTaskResult fheId initialState 1 "t" [] [] 0)
      = initialState ∧
    resEvents (submitTaskResult fheId initialState 1 "t" [] [] 0) = [] :=
  ⟨(submit_failure_atomic fheId initialState 1 0 "t" [] [] CrowdErr.NotFound rfl).1,
   (submit_failure_atomic fheId initialState 1 0 "t" [] [] CrowdErr.NotFound rfl).2.2.2.1⟩

/-- C7: with the earlier `submitTaskResult` preconditions holding, a call
strictly after the deadline reverts with `DeadlineExceeded` for every
external service (hence even if the proof would verify), while a call at
exactly the deadline passes the deadline check: the contract enforces
current time ≤ deadline. -/
theorem submit_deadline_boundary (env : FheEnv) (st : LedgerState)
    (sender now : Nat) (taskId : String) (res proof : List Nat)
    (h1 : (st.tasks taskId).title ≠ "")
    (h2 : st.taskAssignments taskId = sender)
    (h3 : (st.tasks taskId).isCompleted = false) :
    ((st.tasks taskId).deadline < now →
      submitTaskResult env st sender taskId res proof now
        = Except.error CrowdErr.DeadlineExceeded) ∧
    (now = (st.tasks taskId).deadline →
      submitTaskResult env st sender taskId res proof now
        ≠ Except.error CrowdErr.DeadlineExceeded) := by
  constructor
  · intro hd
    unfold submitTaskResult
    rw [if_neg (by simpa using h1), if_neg (by simp [h2]),
      if_neg (by simp [h3]), if_pos hd]
  · intro hd
    unfold submitTaskResult
    rw [if_neg (by simpa using h1), if_neg (by simp [h2]),
      if_neg (by simp [h3]), if_neg (by omega)]
    split_ifs <;> simp

/-- C7 (witness): on the concrete ready state (deadline 50), submission
at time 51 reverts with `DeadlineExceeded` although the proof would
verify, and submission at time 50 does not hit the deadline check. -/
theorem submit_deadline_boundary_witness :
    submitTaskResult fheId exSt3 2 "t" [1] [1] 51
      = Except.error CrowdErr.DeadlineExceeded ∧
    submitTaskResult fheId exSt3 2 "t" [1] [1] 50
      ≠ Except.error CrowdErr.DeadlineExceeded :=
  ⟨(submit_deadline_boundary fheId exSt3 2 51 "t" [1] [1]
      (by decide) (by decide) (by decide)).1 (by decide),
   (submit_deadline_boundary fheId exSt3 2 50 "t" [1] [1]
      (by decide) (by decide) (by decide)).2 (by decide)⟩

/-- First violated precondition of `assignTask`, written down in the
order the spec states: existence, `Active` phase, no prior assignment,
worker registration; `none` when all four hold. -/
def assignSpecOutcome (st : LedgerState) (sender : Nat) (taskId : String) :
    Option CrowdErr :=
  if (st.tasks taskId).title = "" then some CrowdErr.NotFound
  else if (st.tasks taskId).isActive = false then some CrowdErr.NotActive
  else if st.taskAssignments taskId ≠ 0 then some CrowdErr.AlreadyAssigned
  else if (st.workers sender).workerAddress = 0 then
    some CrowdErr.WorkerNotRegistered
  else none

/-- C8: for every input state, `assignTask` reverts with exactly the
error of the first violated precondition in the order NotFound,
NotActive, AlreadyAssigned, WorkerNotRegistered — first failure wins —
and succeeds exactly when no precondition is violated. -/
theorem assignTask_first_error (st : LedgerState) (sender : Nat)
    (taskId : String) :
    (∀ e, assignTask st sender taskId = Except.error e ↔
        assignSpecOutcome st sender taskId = some e) ∧
    (assignSpecOutcome st sender taskId = none ↔
        resOk (assignTask st sender taskId) = true) := by
  unfold assignTask assignSpecOutcome
  split_ifs <;> simp [resOk]

/-- C8 (witness): on the empty ledger the first check already fails, and
the common outcome is `NotFound`. -/
theorem assignTask_first_error_witness :
    assignSpecOutcome initialState 5 "t" = some CrowdErr.NotFound ∧
    assignTask initialState 5 "t" = Except.error CrowdErr.NotFound :=
  ⟨rfl, ((assignTask_first_error initialState 5 "t").1 CrowdErr.NotFound).2 rfl⟩

/-- C9: the assignment relation stores at most one worker per task; a
successful `assignTask` from a reachable state records the caller, whose
identity is never the zero address; and once a non-zero assignment is
recorded for a key, no sequence of successful calls ever changes or
removes it. -/
theorem assignment_permanent :
    (∀ (st : LedgerState) (k : String) (w1 w2 : Nat),
      st.taskAssignments k = w1 → st.taskAssignments k = w2 → w1 = w2) ∧
    (∀ (st : LedgerState) (sender : Nat) (k : String), Reachable st →
      resOk (assignTask st sender k) = true →
        (resState st (assignTask st sender k)).taskAssignments k = sender ∧
        sender ≠ 0) ∧
    (∀ (st st' : LedgerState) (k : String), Relation.ReflTransGen Step st st' →
      st.taskAssignments k ≠ 0 →
        st'.taskAssignments k = st.taskAssignments k) := by
  refine ⟨fun st k w1 w2 hw1 hw2 => hw1 ▸ hw2, ?_, ?_⟩
  · intro st sender k hr h
    cases hc : assignTask st sender k with
    | ok q =>
        obtain ⟨h1, h2, h3, h4, hst, hev⟩ := assignTask_ok hc
        have hrec : q.1.taskAssignments k = sender := by
          rw [hst]
          dsimp only [updAssign]
          rw [if_pos rfl]
        refine ⟨hrec, ?_⟩
        rcases reachable_workerAddr hr sender with h0 | h0
        · exact absurd h0 h4
        · intro hzero
          rw [hzero] at h0
          rw [hzero] at h4
          exact h4 h0
    | error err => rw [hc] at h; exact absurd h (by simp [resOk])
  · intro st st' k hsteps
    induction hsteps with
    | refl => intro _; rfl
    | tail hab hbc ih =>
        intro hne
        rw [step_assign_mono hbc k (by rw [ih hne]; exact hne), ih hne]

/-- C9 (witness): on the concrete reachable state with registered worker
2, assigning task "t" records assignee 2, which is non-zero. -/
theorem assignment_permanent_witness :
    (resState exSt2 (assignTask exSt2 2 "t")).taskAssignments "t" = 2 ∧
    (2 : Nat) ≠ 0 :=
  assignment_permanent.2.1 exSt2 2 "t" exSt2_reachable rfl

/-- C10: task existence in the public interface is the non-emptiness of
the stored title.  After a successful `createTask` with an empty title,
the stored record is invisible: `getTask`, `assignTask` and
`submitTaskResult` all revert with `NotFound`, and a second `createTask`
with the same key succeeds, silently overwrites the record and pushes
the key onto `taskIds` a second time. -/
theorem empty_title_task_nonexistent (env env2 : FheEnv)
    (st : LedgerState) (s s2 : Nat) (k title2 : String) (e : Nat)
    (p : List Nat) (r d : Nat) (e2 : Nat) (p2 : List Nat) (r2 d2 : Nat)
    (h : resOk (createTask env st s k "" e p r d) = true)
    (hv : env2.isInitialized (env2.fromExternal e2 p2) = true) :
    ((resState st (createTask env st s k "" e p r d)).tasks k).title = "" ∧
    k ∈ (resState st (createTask env st s k "" e p r d)).taskIds ∧
    getTask (resState st (createTask env st s k "" e p r d)) k
      = Except.error CrowdErr.NotFound ∧
    (∀ s', assignTask (resState st (createTask env st s k "" e p r d)) s' k
      = Except.error CrowdErr.NotFound) ∧
    (∀ s' res proof now,
      submitTaskResult env2 (resState st (createTask env st s k "" e p r d)) s' k res proof now
        = Except.error CrowdErr.NotFound) ∧
    resOk (createTask env2 (resState st (createTask env st s k "" e p r d))
      s2 k title2 e2 p2 r2 d2) = true ∧
    ((resState (resState st (createTask env st s k "" e p r d))
        (createTask env2 (resState st (createTask env st s k "" e p r d))
          s2 k title2 e2 p2 r2 d2)).tasks k)
      = { title := title2, encryptedData := env2.fromExternal e2 p2,
          rewardAmount := r2, deadline := d2, requester := s2,
          isActive := true, isCompleted := false } ∧
    (resState (resState st (createTask env st s k "" e p r d))
        (createTask env2 (resState st (createTask env st s k "" e p r d))
          s2 k title2 e2 p2 r2 d2)).taskIds
      = (resState st (createTask env st s k "" e p r d)).taskIds ++ [k] := by
  obtain ⟨q, hc⟩ : ∃ q, createTask env st s k "" e p r d = Except.ok q := by
    cases hcc : createTask env st s k "" e p r d with
    | ok q => exact ⟨q, rfl⟩
    | error err => rw [hcc] at h; exact absurd h (by simp [resOk])
  obtain ⟨ht, hv0, hst, hev⟩ := createTask_ok hc
  rw [hc]
  simp only [resState]
  have hk : (q.1.tasks k).title = "" := by
    rw [hst]
    dsimp only [updTask]
    rw [if_pos rfl]
  have hmem : k ∈ q.1.taskIds := by
    rw [hst]
    exact List.mem_append_right _ (List.mem_singleton.mpr rfl)
  have hc2 : createTask env2 q.1 s2 k title2 e2 p2 r2 d2
      = Except.ok
        ({ q.1 with
            tasks := updTask q.1.tasks k
              { title := title2, encryptedData := env2.fromExternal e2 p2,
                rewardAmount := r2, deadline := d2, requester := s2,
                isActive := true, isCompleted := false },
            taskIds := q.1.taskIds ++ [k],
            allowedThis := updFlag q.1.allowedThis (env2.fromExternal e2 p2),
            publiclyDecryptable :=
              updFlag q.1.publiclyDecryptable (env2.fromExternal e2 p2) },
          [Event.TaskCreated k s2]) := by
    unfold createTask
    rw [if_neg (by simpa using hk), if_neg (by simp [hv])]
  refine ⟨hk, hmem, ?_, ?_, ?_, ?_, ?_, ?_⟩
  · unfold getTask
    rw [if_pos hk]
  · intro s'
    unfold assignTask
    rw [if_pos hk]
  · intro s' res proof now
    unfold submitTaskResult
    rw [if_pos hk]
  · rw [hc2]
    rfl
  · rw [hc2]
    simp only [resState]
    dsimp only [updTask]
    rw [if_pos rfl]
  · rw [hc2]

/-- C10 (witness): the concrete empty-title creation under key "t",
followed by a second successful creation under the same key. -/
theorem empty_title_task_nonexistent_witness :
    (stEmptyTitle.tasks "t").title = "" ∧
    "t" ∈ stEmptyTitle.taskIds ∧
    getTask stEmptyTitle "t" = Except.error CrowdErr.NotFound ∧
    resOk (createTask fheId stEmptyTitle 2 "t" "Second" 8 [] 5 60) = true ∧
    (resState stEmptyTitle
        (createTask fheId stEmptyTitle 2 "t" "Second" 8 [] 5 60)).taskIds
      = stEmptyTitle.taskIds ++ ["t"] := by
  obtain ⟨a, b, c, _, _, f, _, hids⟩ :=
    empty_title_task_nonexistent fheId fheId initialState 1 2 "t" "Second"
      7 [] 100 50 8 [] 5 60 rfl rfl
  exact ⟨a, b, c, f, hids⟩

end CrowdTaskZ
